import Mathlib

/-!
# caddy-nats-bridge: verification of the request/response bridging engine

A shallow embedding of the core of the `caddy-nats-bridge` repository:

* `common/http_msg_to_nats_msg.go` — `NatsMsgForHttpRequest`, the HTTP → NATS
  translation (subject validation, header transfer, synthetic headers, body);
* `common/header_logging.go` — `getRedactHeadersList`, `shouldRedact`,
  `RedactHeaders`, the log-only header redaction;
* `natsbridge/nats_bridge_app.go` — the 60-second `DefaultTimeout` constant
  and the connection-level default-timeout provisioning;
* `request.go` (the `request` package) — `Request.Provision` (endpoint-level
  timeout resolution) and `Request.ServeHTTP` (the per-request orchestration:
  translate, bus request/reply, projection of the reply or failure onto the
  HTTP response).

Go maps `map[string][]string` (`http.Header` / `nats.Header`) are embedded as
association lists `List (String × List String)`; the in-place mutation that
`nats.Header.Add` performs on the (aliased) request header map is made
explicit by returning the post-call state of the request.  The NATS
connection is embedded as an oracle `NatsMsg → Int → BusOutcome` standing for
`nats.Conn.RequestMsg`, and the `http.ResponseWriter` as a trace of the
status / header / body writes the handler issues against it.
-/

/-- Go `map[string][]string` (`http.Header` and `nats.Header` both convert to
it), embedded as an association list with one entry per key. -/
abbrev Header := List (String × List String)

/-- The value slice `h[k]` of a Go string-keyed multimap: the values of the
first entry with key `k`, `[]` when the key is absent. -/
def headerGetValues (h : Header) (k : String) : List String :=
  match h.find? (fun p => p.1 = k) with
  | some p => p.2
  | none => []

/-- Embeds `nats.Header.Add` (nats.go): `h[key] = append(h[key], value)` —
case-sensitive, appends to the existing values of `key`. -/
def headerAdd (h : Header) (k v : String) : Header :=
  if h.any (fun p => p.1 = k) then
    h.map (fun p => if p.1 = k then (p.1, p.2 ++ [v]) else p)
  else
    h ++ [(k, [v])]

/-- Embeds `nats.Header.Get` (nats.go): case-sensitive; the first value of `h[key]`,
`""` when the key is absent. -/
def natsHeaderGet (h : Header) (k : String) : String :=
  match h.find? (fun p => p.1 = k) with
  | some p => p.2.headD ""
  | none => ""

/-- The fields of `*http.Request` that `NatsMsgForHttpRequest` and
`Request.ServeHTTP` read.  `bodyBytes`/`bodyErr` are the pair that
`io.ReadAll(r.Body)` returns (the bytes read before EOF or the error, and the
error if the body could not be fully read).  `extraCtxHeaders` is the
`map[string]string` that `ExtraNatsMsgHeadersFromContext(r.Context())`
returns (an input of the translation; its own computation lives outside the
translation function). -/
structure HttpRequest where
  method : String
  urlPath : String
  urlRawQuery : String
  header : Header
  bodyBytes : List Nat
  bodyErr : Option String
  extraCtxHeaders : List (String × String)
  deriving DecidableEq, Repr

/-- Embeds `nats.Msg`: the fields the bridge reads and writes. -/
structure NatsMsg where
  subject : String
  header : Header
  data : List Nat
  deriving DecidableEq, Repr

instance : DecidableEq (Except String NatsMsg) := fun a b =>
  match a, b with
  | Except.ok x, Except.ok y =>
    if h : x = y then Decidable.isTrue (by rw [h])
    else Decidable.isFalse (by intro hc; cases hc; exact h rfl)
  | Except.error x, Except.error y =>
    if h : x = y then Decidable.isTrue (by rw [h])
    else Decidable.isFalse (by intro hc; cases hc; exact h rfl)
  | Except.ok _, Except.error _ => Decidable.isFalse (by intro hc; cases hc)
  | Except.error _, Except.ok _ => Decidable.isFalse (by intro hc; cases hc)

/-- The `invalidChars` map of `common/http_msg_to_nats_msg.go`: keys
`'>'`, `'$'`, `' '`. -/
def invalidChar (c : Char) : Bool :=
  c = '>' || c = '$' || c = ' '

/-- The validation loop of `NatsMsgForHttpRequest`:
`for _, v := range subject { if _, ok := invalidChars[v]; ok { return error } }`. -/
def subjectHasInvalidChar (subject : String) : Bool :=
  subject.toList.any invalidChar

/-- The header-preparation loop of `NatsMsgForHttpRequest`:
`headers := nats.Header(r.Header)` followed by
`for k, v := range ExtraNatsMsgHeadersFromContext(r.Context()) { headers.Add(k, v) }`.
The conversion aliases the request's own header map: these `Add`s mutate
`r.Header`. -/
def headersAfterContext (r : HttpRequest) : Header :=
  r.extraCtxHeaders.foldl (fun h kv => headerAdd h kv.1 kv.2) r.header

/-- The header map after the three `msg.Header.Add("X-NatsBridge-…", …)`
calls of `NatsMsgForHttpRequest` (method, URL path, raw query, in that
order). -/
def translatedHeader (r : HttpRequest) : Header :=
  headerAdd
    (headerAdd
      (headerAdd (headersAfterContext r) "X-NatsBridge-Method" r.method)
      "X-NatsBridge-UrlPath" r.urlPath)
    "X-NatsBridge-UrlQuery" r.urlRawQuery

/-- Embeds `common.NatsMsgForHttpRequest` (`common/http_msg_to_nats_msg.go`).
Returns the Go function's result together with the post-call state of the
request: `headers := nats.Header(r.Header)` converts (aliases) the request's
own header map, so every `Add` mutates `r.Header` as well, and
`io.ReadAll(r.Body)` consumes the body.  Note the source discards the
`io.ReadAll` error (`b, _ := io.ReadAll(r.Body)`), and the three synthetic
headers are attached with `Add` (append), after the context extras and only
after the subject check passed. -/
def NatsMsgForHttpRequest (r : HttpRequest) (subject : String) :
    Except String NatsMsg × HttpRequest :=
  if subjectHasInvalidChar subject then
    (Except.error ("invalid character in subject " ++ subject),
     { r with header := headersAfterContext r, bodyBytes := [] })
  else
    (Except.ok ⟨subject, translatedHeader r, r.bodyBytes⟩,
     { r with header := translatedHeader r, bodyBytes := [] })

/-- Holds when `common.NatsMsgForHttpRequest` returns a message (no error). -/
def translationOk (r : HttpRequest) (subject : String) : Bool :=
  match (NatsMsgForHttpRequest r subject).1 with
  | Except.ok _ => true
  | Except.error _ => false

/-- Embeds `natsbridge.DefaultTimeout = 60 * time.Second`
(`natsbridge/nats_bridge_app.go`), in nanoseconds (`time.Duration`). -/
def DefaultTimeout : Int := 60 * 1000000000

/-- The default-timeout step of `NatsBridgeApp.Provision`
(`natsbridge/nats_bridge_app.go`): each server whose `DefaultTimeout` is nil
gets the fallback `DefaultTimeout` constant. -/
def appProvisionDefaultTimeout (serverDefault : Option Int) : Option Int :=
  match serverDefault with
  | none => some DefaultTimeout
  | some d => some d

/-- The timeout-resolution step of `Request.Provision` (`request.go`): when
the route-level timeout is undefined, take the server's `DefaultTimeout` when
set, else the `natsbridge.DefaultTimeout` fallback; a defined route-level
timeout is kept. -/
def requestProvisionTimeout (pTimeout serverDefault : Option Int) : Option Int :=
  if pTimeout = none then
    match serverDefault with
    | some d => some d
    | none => some DefaultTimeout
  else
    pTimeout

/-- The outcome of `server.Conn.RequestMsg(msg, timeout)`: a reply message or
one of the distinguishable bus-level failures (`nats.ErrNoResponders`,
`nats.ErrTimeout`, any other error). -/
inductive BusOutcome where
  | reply (msg : NatsMsg)
  | noResponders
  | timeout
  | otherError (e : String)
  deriving DecidableEq, Repr

/-- What `Request.ServeHTTP` did to the `http.ResponseWriter` and what it
returned: the `WriteHeader` calls in order, the `w.Header().Add` calls in
order, the `w.Write` calls in order, the handler's returned error, and
whether `server.Conn.RequestMsg` was reached. -/
structure ServeResult where
  statusWrites : List Int
  headerAdds : List (String × String)
  bodyWrites : List (List Nat)
  retErr : Option String
  busCalled : Bool
  deriving DecidableEq, Repr

/-- The headers `Request.ServeHTTP` strips from the reply before copying it
onto the HTTP response — five exact-case strings. -/
def dropHeaderKeys : List String :=
  ["Nats-Service-Error", "Nats-Service-Error-Code",
   "nats-service-error", "nats-service-error-code", "Content-Length"]

/-- The response-header copy loop of `Request.ServeHTTP`: for each reply
header not in the exclusion list, `w.Header().Add(k, header)` for each of its
values. -/
def projectReplyHeaderAdds (respHeader : Header) : List (String × String) :=
  respHeader.flatMap (fun p =>
    if dropHeaderKeys.contains p.1 then []
    else p.2.map (fun v => (p.1, v)))

/-- Go `strconv.Atoi`: optional sign, then decimal digits only; fails on an
empty number, a non-digit, or a value outside the 64-bit int range. -/
def goAtoi (s : String) : Option Int :=
  let signSplit : Bool × List Char :=
    match s.toList with
    | '-' :: rest => (true, rest)
    | '+' :: rest => (false, rest)
    | l => (false, l)
  let digits := signSplit.2
  if digits = [] then none
  else if digits.all Char.isDigit then
    let n : Nat := digits.foldl (fun acc c => acc * 10 + (c.toNat - 48)) 0
    let v : Int := if signSplit.1 then -(n : Int) else (n : Int)
    if v < -(2 ^ 63 : Int) ∨ (2 ^ 63 : Int) ≤ v then none else some v
  else none

/-- Embeds `Request.ServeHTTP` (`request.go`), after the replacer produced the
resolved subject `subj`.  `serverFound` is the `p.app.Servers[p.ServerAlias]`
lookup, `timeout` is `p.Timeout`, and `bus` stands for
`server.Conn.RequestMsg`.  The handler's effects on the response writer and
its returned error are recorded in the result trace. -/
def ServeHTTP (subj : String) (timeout : Option Int) (serverFound : Bool)
    (r : HttpRequest) (bus : NatsMsg → Int → BusOutcome) : ServeResult :=
  if ¬serverFound then
    ⟨[], [], [], some "NATS server alias not found", false⟩
  else
    match (NatsMsgForHttpRequest r subj).1 with
    | Except.error _ => ⟨[400], [], [], none, false⟩
    | Except.ok msg =>
      match timeout with
      | none => ⟨[], [], [], some "timeout not initialized", false⟩
      | some t =>
        match bus msg t with
        | BusOutcome.noResponders => ⟨[404], [], [], none, true⟩
        | BusOutcome.timeout => ⟨[504], [], [], none, true⟩
        | BusOutcome.otherError e =>
            ⟨[500], [], [], some ("could not request NATS message: " ++ e), true⟩
        | BusOutcome.reply resp =>
            let adds := projectReplyHeaderAdds resp.header
            let code := natsHeaderGet resp.header "Nats-Service-Error-Code"
            if code ≠ "" ∧ code ≠ "200" then
              match goAtoi code with
              | none => ⟨[500], adds, [], some ("error converting status: " ++ code), true⟩
              | some status => ⟨[status], adds, [resp.data], none, true⟩
            else
              ⟨[], adds, [resp.data], none, true⟩

/-- The HTTP status the response ends up with under `net/http` semantics: the
first `WriteHeader` wins; a `Write` without a prior `WriteHeader` implies
200; `none` when nothing was written at all. -/
def effectiveStatus (res : ServeResult) : Option Int :=
  match res.statusWrites with
  | s :: _ => some s
  | [] => if res.bodyWrites = [] then none else some 200

/-- Embeds `getRedactHeadersList` (`common/header_logging.go`): parse the
`LOGGER_REDACT_HEADERS` environment value — an empty value means no
redaction; otherwise split on commas, trim whitespace, drop empty parts and
lowercase each name for case-insensitive comparison.  (The Go code computes
this once per process under a `sync.Once`; the cached value is a pure
function of the environment value, embedded as that function.) -/
def getRedactHeadersList (envValue : String) : List String :=
  if envValue = "" then []
  else (envValue.splitOn ",").filterMap (fun part =>
    if part.trim = "" then none else some part.trim.toLower)

/-- Embeds `shouldRedact` (`common/header_logging.go`): lowercase the header name
and compare it against each entry of the parsed redaction list. -/
def shouldRedact (envValue : String) (headerName : String) : Bool :=
  (getRedactHeadersList envValue).contains headerName.toLower

/-- Embeds `RedactHeaders` (`common/header_logging.go`): a nil map (`none`) returns
nil; otherwise a fresh map in which every header that `shouldRedact` matches
has each of its values replaced by the mask `"***"`, and every other header
keeps its original values. -/
def RedactHeaders (envValue : String) (headers : Option Header) : Option Header :=
  match headers with
  | none => none
  | some hs => some (hs.map (fun p =>
      if shouldRedact envValue p.1 then (p.1, p.2.map (fun _ => "***")) else p))

/-- C1: Timeout precedence law — the resolved per-endpoint timeout is the
endpoint value when defined, else the connection default when defined, else
the 60-second fallback; it is always a concrete (`some`) value, and composing
with the connection-level provisioning step changes nothing. -/
theorem timeout_precedence_law (endpointTimeout connectionDefault : Option Int) :
    requestProvisionTimeout endpointTimeout connectionDefault
        = some (endpointTimeout.getD (connectionDefault.getD DefaultTimeout))
    ∧ (requestProvisionTimeout endpointTimeout connectionDefault).isSome = true
    ∧ requestProvisionTimeout endpointTimeout (appProvisionDefaultTimeout connectionDefault)
        = some (endpointTimeout.getD (connectionDefault.getD DefaultTimeout)) := by
  cases endpointTimeout <;> cases connectionDefault <;>
    simp [requestProvisionTimeout, appProvisionDefaultTimeout, Option.getD]

theorem translationOk_eq_not_invalid (r : HttpRequest) (subject : String) :
    translationOk r subject = !subjectHasInvalidChar subject := by
  by_cases h : subjectHasInvalidChar subject <;>
    simp [translationOk, NatsMsgForHttpRequest, h]

theorem subjectHasInvalidChar_eq_false_iff (subject : String) :
    subjectHasInvalidChar subject = false
      ↔ ∀ c ∈ subject.toList, c ≠ '>' ∧ c ≠ '$' ∧ c ≠ ' ' := by
  simp only [subjectHasInvalidChar, List.any_eq_false, invalidChar]
  constructor
  · intro h c hc
    have := h c hc
    simp only [Bool.or_eq_true, decide_eq_true_eq] at this
    push_neg at this
    exact ⟨this.1.1, this.1.2, this.2⟩
  · intro h c hc
    rcases h c hc with ⟨h1, h2, h3⟩
    simp [h1, h2, h3]

/-- C2: Subject validation is exact — translation succeeds iff the subject
contains none of `'>'`, `'$'`, `' '`; in particular the empty subject always
translates. -/
theorem subject_validation_exact (r : HttpRequest) (subject : String) :
    (translationOk r subject = true
      ↔ ∀ c ∈ subject.toList, c ≠ '>' ∧ c ≠ '$' ∧ c ≠ ' ')
    ∧ translationOk r "" = true := by
  constructor
  · rw [translationOk_eq_not_invalid, Bool.not_eq_true']
    exact subjectHasInvalidChar_eq_false_iff subject
  · rw [translationOk_eq_not_invalid]
    rfl

theorem find?_key_map_adjust (t : Header) (k v : String) :
    (t.map (fun p => if p.1 = k then (p.1, p.2 ++ [v]) else p)).find? (fun p => p.1 = k)
      = (t.find? (fun p => p.1 = k)).map (fun p => (p.1, p.2 ++ [v])) := by
  induction t with
  | nil => rfl
  | cons q t ih =>
    rw [List.map_cons]
    by_cases hq : q.1 = k
    · rw [List.find?_cons_of_pos _ (by simp [hq]), List.find?_cons_of_pos _ (by simp [hq])]
      simp [hq]
    · rw [List.find?_cons_of_neg _ (by simp [hq]), List.find?_cons_of_neg _ (by simp [hq])]
      exact ih

theorem find?_key_map_other (t : Header) (k k' v : String) (hne : k' ≠ k) :
    (t.map (fun p => if p.1 = k' then (p.1, p.2 ++ [v]) else p)).find? (fun p => p.1 = k)
      = t.find? (fun p => p.1 = k) := by
  induction t with
  | nil => rfl
  | cons q t ih =>
    simp only [List.map_cons]
    by_cases hq : q.1 = k'
    · have hqk : ¬ q.1 = k := by rw [hq]; exact hne
      rw [if_pos hq]
      rw [List.find?_cons_of_neg _ (by simp [hqk]), List.find?_cons_of_neg _ (by simp [hqk])]
      exact ih
    · rw [if_neg hq]
      by_cases hqk : q.1 = k
      · rw [List.find?_cons_of_pos _ (by simp [hqk]), List.find?_cons_of_pos _ (by simp [hqk])]
      · rw [List.find?_cons_of_neg _ (by simp [hqk]), List.find?_cons_of_neg _ (by simp [hqk])]
        exact ih

theorem headerGetValues_add_self (h : Header) (k v : String) :
    headerGetValues (headerAdd h k v) k = headerGetValues h k ++ [v] := by
  cases hany : h.any (fun p => p.1 = k) with
  | true =>
    simp only [headerAdd, hany, if_true, headerGetValues, find?_key_map_adjust]
    cases hfind : h.find? (fun p => decide (p.1 = k)) with
    | none =>
      rcases List.any_eq_true.mp hany with ⟨x, hx, hpx⟩
      exact absurd hpx (List.find?_eq_none.mp hfind x hx)
    | some q => simp [hfind]
  | false =>
    have hnone : h.find? (fun p => decide (p.1 = k)) = none := by
      rw [List.find?_eq_none]
      intro x hx hpx
      have : h.any (fun p => p.1 = k) = true := List.any_eq_true.mpr ⟨x, hx, hpx⟩
      rw [hany] at this
      exact Bool.false_ne_true this
    simp only [headerAdd, hany, Bool.false_eq_true, if_false, headerGetValues,
      List.find?_append, hnone, Option.none_or]
    rw [List.find?_cons_of_pos _ (by simp)]
    simp

theorem headerGetValues_add_other (h : Header) (k k' v : String) (hne : k' ≠ k) :
    headerGetValues (headerAdd h k' v) k = headerGetValues h k := by
  cases hany : h.any (fun p => p.1 = k') with
  | true =>
    simp only [headerAdd, hany, if_true, headerGetValues, find?_key_map_other h k k' v hne]
  | false =>
    simp only [headerAdd, hany, Bool.false_eq_true, if_false, headerGetValues,
      List.find?_append]
    rw [List.find?_cons_of_neg _ (by simp [hne])]
    simp

theorem mem_headerGetValues_headerAdd (h : Header) (k k' v x : String)
    (hx : x ∈ headerGetValues h k) : x ∈ headerGetValues (headerAdd h k' v) k := by
  by_cases hk : k' = k
  · subst hk
    rw [headerGetValues_add_self]
    exact List.mem_append_left _ hx
  · rw [headerGetValues_add_other h k k' v hk]
    exact hx

theorem mem_headerGetValues_foldl (l : List (String × String)) (h : Header) (k x : String)
    (hx : x ∈ headerGetValues h k) :
    x ∈ headerGetValues (l.foldl (fun acc kv => headerAdd acc kv.1 kv.2) h) k := by
  induction l generalizing h with
  | nil => exact hx
  | cons hd t ih =>
    rw [List.foldl_cons]
    exact ih _ (mem_headerGetValues_headerAdd h k hd.1 hd.2 x hx)

theorem mem_foldl_headerAdd (l : List (String × String)) (h : Header) :
    ∀ kv ∈ l, kv.2 ∈ headerGetValues (l.foldl (fun acc kv => headerAdd acc kv.1 kv.2) h) kv.1 := by
  induction l generalizing h with
  | nil => intro kv hkv; cases hkv
  | cons hd t ih =>
    intro kv hkv
    rw [List.foldl_cons]
    rcases List.mem_cons.mp hkv with hkv | hkv
    · subst hkv
      refine mem_headerGetValues_foldl t _ kv.1 kv.2 ?_
      rw [headerGetValues_add_self]
      exact List.mem_append_right _ (by simp)
    · exact ih _ kv hkv

theorem subject_ok_of_translation_ok (r : HttpRequest) (subject : String) (msg : NatsMsg)
    (hok : (NatsMsgForHttpRequest r subject).1 = Except.ok msg) :
    subjectHasInvalidChar subject = false := by
  by_contra hc
  rw [Bool.not_eq_false] at hc
  simp [NatsMsgForHttpRequest, hc] at hok

theorem msg_header_of_translation_ok (r : HttpRequest) (subject : String) (msg : NatsMsg)
    (hok : (NatsMsgForHttpRequest r subject).1 = Except.ok msg) :
    msg.header = translatedHeader r := by
  have hbad := subject_ok_of_translation_ok r subject msg hok
  simp only [NatsMsgForHttpRequest, hbad, Bool.false_eq_true, if_false,
    Except.ok.injEq] at hok
  rw [← hok]

/-- C3 counterexample: a request whose caller-supplied headers already hold
`X-NatsBridge-Method ↦ ["FOO"]` translates to a message whose value list for
that name is `["FOO", "GET"]` — the synthetic value is appended, the
caller-supplied value survives and stays first, so the translated value is
not exactly the synthetic one. -/
theorem synthetic_header_override_counterexample :
    (NatsMsgForHttpRequest
        ⟨"GET", "/p", "", [("X-NatsBridge-Method", ["FOO"])], [], none, []⟩ "subj").1
      = Except.ok ⟨"subj",
          [("X-NatsBridge-Method", ["FOO", "GET"]),
           ("X-NatsBridge-UrlPath", ["/p"]),
           ("X-NatsBridge-UrlQuery", [""])], []⟩
    ∧ natsHeaderGet
        [("X-NatsBridge-Method", ["FOO", "GET"]),
         ("X-NatsBridge-UrlPath", ["/p"]),
         ("X-NatsBridge-UrlQuery", [""])] "X-NatsBridge-Method" = "FOO"
    ∧ headerGetValues
        [("X-NatsBridge-Method", ["FOO", "GET"]),
         ("X-NatsBridge-UrlPath", ["/p"]),
         ("X-NatsBridge-UrlQuery", [""])] "X-NatsBridge-Method" ≠ ["GET"] := by
  refine ⟨by decide, by decide, by decide⟩

/-- C3 (amended): the three synthetic headers are attached with `Add`
(append), so in the translated message each synthetic name's value list is
the caller-supplied (plus context-injected) values followed by the synthetic
value — the synthetic value is always present and last, but it does not
overwrite caller-supplied values. -/
theorem synthetic_header_append (r : HttpRequest) (subject : String) (msg : NatsMsg)
    (hok : (NatsMsgForHttpRequest r subject).1 = Except.ok msg) :
    headerGetValues msg.header "X-NatsBridge-Method"
        = headerGetValues (headersAfterContext r) "X-NatsBridge-Method" ++ [r.method]
    ∧ headerGetValues msg.header "X-NatsBridge-UrlPath"
        = headerGetValues (headersAfterContext r) "X-NatsBridge-UrlPath" ++ [r.urlPath]
    ∧ headerGetValues msg.header "X-NatsBridge-UrlQuery"
        = headerGetValues (headersAfterContext r) "X-NatsBridge-UrlQuery" ++ [r.urlRawQuery] := by
  rw [msg_header_of_translation_ok r subject msg hok]
  unfold translatedHeader
  refine ⟨?_, ?_, ?_⟩
  · rw [headerGetValues_add_other _ _ _ _ (by decide),
        headerGetValues_add_other _ _ _ _ (by decide),
        headerGetValues_add_self]
  · rw [headerGetValues_add_other _ _ _ _ (by decide),
        headerGetValues_add_self,
        headerGetValues_add_other _ _ _ _ (by decide)]
  · rw [headerGetValues_add_self,
        headerGetValues_add_other _ _ _ _ (by decide),
        headerGetValues_add_other _ _ _ _ (by decide)]

/-- Witness for the amended C3 at a concrete input. -/
theorem synthetic_header_append_witness :
    headerGetValues
        (NatsMsg.header ⟨"subj",
          [("X-NatsBridge-Method", ["FOO", "GET"]),
           ("X-NatsBridge-UrlPath", ["/p"]),
           ("X-NatsBridge-UrlQuery", [""])], []⟩) "X-NatsBridge-Method"
      = headerGetValues
          (headersAfterContext
            ⟨"GET", "/p", "", [("X-NatsBridge-Method", ["FOO"])], [], none, []⟩)
          "X-NatsBridge-Method" ++ ["GET"] :=
  (synthetic_header_append
    ⟨"GET", "/p", "", [("X-NatsBridge-Method", ["FOO"])], [], none, []⟩ "subj"
    ⟨"subj",
      [("X-NatsBridge-Method", ["FOO", "GET"]),
       ("X-NatsBridge-UrlPath", ["/p"]),
       ("X-NatsBridge-UrlQuery", [""])], []⟩ (by decide)).1

/-- C10: translation builds the message header map as an alias of the
request's own header map (the in-place mutation is modelled by the returned
post-call request state): after a successful call the request's header map
is the message's header map, it contains the three synthetic
X-NatsBridge-* entries and every context-injected extra header, and no field
of the request other than the header map and the consumed body changed. -/
theorem translation_mutates_request (r : HttpRequest) (subject : String) (msg : NatsMsg)
    (hok : (NatsMsgForHttpRequest r subject).1 = Except.ok msg) :
    (NatsMsgForHttpRequest r subject).2.header = msg.header
    ∧ r.method ∈ headerGetValues (NatsMsgForHttpRequest r subject).2.header "X-NatsBridge-Method"
    ∧ r.urlPath ∈ headerGetValues (NatsMsgForHttpRequest r subject).2.header "X-NatsBridge-UrlPath"
    ∧ r.urlRawQuery ∈ headerGetValues (NatsMsgForHttpRequest r subject).2.header "X-NatsBridge-UrlQuery"
    ∧ (∀ kv ∈ r.extraCtxHeaders,
        kv.2 ∈ headerGetValues (NatsMsgForHttpRequest r subject).2.header kv.1)
    ∧ (NatsMsgForHttpRequest r subject).2.method = r.method
    ∧ (NatsMsgForHttpRequest r subject).2.urlPath = r.urlPath
    ∧ (NatsMsgForHttpRequest r subject).2.urlRawQuery = r.urlRawQuery
    ∧ (NatsMsgForHttpRequest r subject).2.bodyBytes = [] := by
  have hbad := subject_ok_of_translation_ok r subject msg hok
  have hmsg := msg_header_of_translation_ok r subject msg hok
  have hpost : (NatsMsgForHttpRequest r subject).2
      = { r with header := translatedHeader r, bodyBytes := [] } := by
    simp [NatsMsgForHttpRequest, hbad]
  have hmemM : r.method ∈ headerGetValues (translatedHeader r) "X-NatsBridge-Method" := by
    unfold translatedHeader
    rw [headerGetValues_add_other _ _ _ _ (by decide),
        headerGetValues_add_other _ _ _ _ (by decide),
        headerGetValues_add_self]
    exact List.mem_append_right _ (by simp)
  have hmemP : r.urlPath ∈ headerGetValues (translatedHeader r) "X-NatsBridge-UrlPath" := by
    unfold translatedHeader
    rw [headerGetValues_add_other _ _ _ _ (by decide),
        headerGetValues_add_self]
    exact List.mem_append_right _ (by simp)
  have hmemQ : r.urlRawQuery ∈ headerGetValues (translatedHeader r) "X-NatsBridge-UrlQuery" := by
    unfold translatedHeader
    rw [headerGetValues_add_self]
    exact List.mem_append_right _ (by simp)
  have hctx : ∀ kv ∈ r.extraCtxHeaders, kv.2 ∈ headerGetValues (translatedHeader r) kv.1 := by
    intro kv hkv
    unfold translatedHeader
    refine mem_headerGetValues_headerAdd _ _ _ _ _
      (mem_headerGetValues_headerAdd _ _ _ _ _
        (mem_headerGetValues_headerAdd _ _ _ _ _ ?_))
    exact mem_foldl_headerAdd r.extraCtxHeaders r.header kv hkv
  rw [hpost]
  exact ⟨by rw [hmsg], hmemM, hmemP, hmemQ, hctx, rfl, rfl, rfl, rfl⟩

/-- Witness for C10 at a concrete input. -/
theorem translation_mutates_request_witness :
    "POST" ∈ headerGetValues
        (NatsMsgForHttpRequest ⟨"POST", "/x", "a=b", [], [7], none, [("K", "V")]⟩
          "greet.hi").2.header "X-NatsBridge-Method"
    ∧ (NatsMsgForHttpRequest ⟨"POST", "/x", "a=b", [], [7], none, [("K", "V")]⟩
        "greet.hi").2.method = "POST" :=
  ⟨(translation_mutates_request ⟨"POST", "/x", "a=b", [], [7], none, [("K", "V")]⟩
      "greet.hi"
      ⟨"greet.hi",
        [("K", ["V"]), ("X-NatsBridge-Method", ["POST"]),
         ("X-NatsBridge-UrlPath", ["/x"]), ("X-NatsBridge-UrlQuery", ["a=b"])],
        [7]⟩ (by decide)).2.1,
   (translation_mutates_request ⟨"POST", "/x", "a=b", [], [7], none, [("K", "V")]⟩
      "greet.hi"
      ⟨"greet.hi",
        [("K", ["V"]), ("X-NatsBridge-Method", ["POST"]),
         ("X-NatsBridge-UrlPath", ["/x"]), ("X-NatsBridge-UrlQuery", ["a=b"])],
        [7]⟩ (by decide)).2.2.2.2.2.1⟩

theorem translationOk_ex (r : HttpRequest) (subj : String)
    (hok : translationOk r subj = true) :
    ∃ m, (NatsMsgForHttpRequest r subj).1 = Except.ok m := by
  revert hok
  unfold translationOk
  cases (NatsMsgForHttpRequest r subj).1 with
  | ok m => exact fun _ => ⟨m, rfl⟩
  | error s => exact fun h => absurd h Bool.false_ne_true

/-- C4: bus failure projection — a no-responders outcome yields HTTP 404
with an empty body and no propagated error; a timeout yields HTTP 504 with
an empty body and no propagated error; any other bus failure yields HTTP 500
with an empty body and an error returned to the host framework. -/
theorem bus_failure_projection (subj : String) (t : Int) (r : HttpRequest) (e : String)
    (hok : translationOk r subj = true) :
    (effectiveStatus (ServeHTTP subj (some t) true r (fun _ _ => BusOutcome.noResponders)) = some 404
      ∧ (ServeHTTP subj (some t) true r (fun _ _ => BusOutcome.noResponders)).bodyWrites = []
      ∧ (ServeHTTP subj (some t) true r (fun _ _ => BusOutcome.noResponders)).retErr = none)
    ∧ (effectiveStatus (ServeHTTP subj (some t) true r (fun _ _ => BusOutcome.timeout)) = some 504
      ∧ (ServeHTTP subj (some t) true r (fun _ _ => BusOutcome.timeout)).bodyWrites = []
      ∧ (ServeHTTP subj (some t) true r (fun _ _ => BusOutcome.timeout)).retErr = none)
    ∧ (effectiveStatus (ServeHTTP subj (some t) true r (fun _ _ => BusOutcome.otherError e)) = some 500
      ∧ (ServeHTTP subj (some t) true r (fun _ _ => BusOutcome.otherError e)).bodyWrites = []
      ∧ (ServeHTTP subj (some t) true r (fun _ _ => BusOutcome.otherError e)).retErr.isSome = true) := by
  rcases translationOk_ex r subj hok with ⟨m, hm⟩
  simp [ServeHTTP, hm, effectiveStatus]

/-- Witness for C4 at a concrete input. -/
theorem bus_failure_projection_witness :
    effectiveStatus (ServeHTTP "greet.hi" (some 1) true ⟨"GET", "/p", "", [], [], none, []⟩
        (fun _ _ => BusOutcome.noResponders)) = some 404 :=
  (bus_failure_projection "greet.hi" 1 ⟨"GET", "/p", "", [], [], none, []⟩ "boom"
    (by decide)).1.1

/-- C7: subject-error short-circuit — when the resolved subject fails
validation the handler answers HTTP 400 immediately, returns no error to the
host framework, adds no response headers, writes no body, and never reaches
the bus request/reply call. -/
theorem subject_error_short_circuit (subj : String) (timeout : Option Int)
    (r : HttpRequest) (bus : NatsMsg → Int → BusOutcome)
    (hbad : subjectHasInvalidChar subj = true) :
    ServeHTTP subj timeout true r bus
      = { statusWrites := [400], headerAdds := [], bodyWrites := [],
          retErr := none, busCalled := false } := by
  simp [ServeHTTP, NatsMsgForHttpRequest, hbad]

/-- Witness for C7: the spec's Scenario E subject `greet.$.hello`. -/
theorem subject_error_short_circuit_witness :
    ServeHTTP "greet.$.hello" none true ⟨"GET", "/p", "", [], [], none, []⟩
        (fun _ _ => BusOutcome.noResponders)
      = { statusWrites := [400], headerAdds := [], bodyWrites := [],
          retErr := none, busCalled := false } :=
  subject_error_short_circuit "greet.$.hello" none ⟨"GET", "/p", "", [], [], none, []⟩
    (fun _ _ => BusOutcome.noResponders) (by decide)

/-- C5 counterexample: a reply carrying `Nats-Service-Error-Code` with the
empty value `""` is a present header whose value is neither an integer nor
`"200"`, yet the handler answers HTTP 200 with no error — the code's
`code != ""` guard treats an empty `Get` result as an absent header. -/
theorem status_code_override_counterexample :
    headerGetValues [("Nats-Service-Error-Code", [""])] "Nats-Service-Error-Code" = [""]
    ∧ goAtoi "" = none
    ∧ ("" : String) ≠ "200"
    ∧ effectiveStatus (ServeHTTP "greet.hi" (some 1) true ⟨"GET", "/p", "", [], [], none, []⟩
        (fun _ _ => BusOutcome.reply ⟨"greet.hi", [("Nats-Service-Error-Code", [""])], []⟩))
      = some 200
    ∧ (ServeHTTP "greet.hi" (some 1) true ⟨"GET", "/p", "", [], [], none, []⟩
        (fun _ _ => BusOutcome.reply ⟨"greet.hi", [("Nats-Service-Error-Code", [""])], []⟩)).retErr
      = none := by
  refine ⟨by decide, by decide, by decide, by decide, by decide⟩

/-- C5 (amended): when the `Nats-Service-Error-Code` header yields a
non-empty `Get` value other than `"200"`, that value is parsed as a 64-bit
integer and used as the HTTP status (no error); a non-empty, non-integer
value (parse failure, including out-of-range) yields HTTP 500 with an
error; the value `"200"` and an empty or absent header all yield HTTP 200
with no error. -/
theorem status_code_override (subj : String) (t : Int) (r : HttpRequest) (resp : NatsMsg)
    (hok : translationOk r subj = true) :
    (∀ s : Int,
      natsHeaderGet resp.header "Nats-Service-Error-Code" ≠ "" →
      natsHeaderGet resp.header "Nats-Service-Error-Code" ≠ "200" →
      goAtoi (natsHeaderGet resp.header "Nats-Service-Error-Code") = some s →
      effectiveStatus (ServeHTTP subj (some t) true r (fun _ _ => BusOutcome.reply resp)) = some s
        ∧ (ServeHTTP subj (some t) true r (fun _ _ => BusOutcome.reply resp)).retErr = none)
    ∧ (natsHeaderGet resp.header "Nats-Service-Error-Code" ≠ "" →
      natsHeaderGet resp.header "Nats-Service-Error-Code" ≠ "200" →
      goAtoi (natsHeaderGet resp.header "Nats-Service-Error-Code") = none →
      (ServeHTTP subj (some t) true r (fun _ _ => BusOutcome.reply resp)).statusWrites = [500]
        ∧ (ServeHTTP subj (some t) true r (fun _ _ => BusOutcome.reply resp)).retErr.isSome = true)
    ∧ (natsHeaderGet resp.header "Nats-Service-Error-Code" = "200"
        ∨ natsHeaderGet resp.header "Nats-Service-Error-Code" = "" →
      effectiveStatus (ServeHTTP subj (some t) true r (fun _ _ => BusOutcome.reply resp)) = some 200
        ∧ (ServeHTTP subj (some t) true r (fun _ _ => BusOutcome.reply resp)).retErr = none) := by
  rcases translationOk_ex r subj hok with ⟨m, hm⟩
  refine ⟨?_, ?_, ?_⟩
  · intro s h1 h2 h3
    constructor <;> simp [ServeHTTP, hm, h1, h2, h3, effectiveStatus]
  · intro h1 h2 h3
    constructor <;> simp [ServeHTTP, hm, h1, h2, h3]
  · intro h
    rcases h with h | h <;>
      constructor <;> simp [ServeHTTP, hm, h, effectiveStatus]

/-- Witness for the amended C5: the spec's Scenario D reply
(`Service-Error-Code: 422`). -/
theorem status_code_override_witness :
    effectiveStatus (ServeHTTP "greet.hi" (some 1) true ⟨"GET", "/p", "", [], [], none, []⟩
        (fun _ _ => BusOutcome.reply
          ⟨"greet.hi", [("Nats-Service-Error-Code", ["422"])], [98, 97, 100]⟩))
      = some 422 :=
  ((status_code_override "greet.hi" 1 ⟨"GET", "/p", "", [], [], none, []⟩
      ⟨"greet.hi", [("Nats-Service-Error-Code", ["422"])], [98, 97, 100]⟩
      (by decide)).1 422 (by decide) (by decide) (by decide)).1

theorem projectReplyHeaderAdds_cons (p : String × List String) (t : Header) :
    projectReplyHeaderAdds (p :: t)
      = (if dropHeaderKeys.contains p.1 then [] else p.2.map (fun v => (p.1, v)))
        ++ projectReplyHeaderAdds t := by
  simp [projectReplyHeaderAdds]

theorem projectReplyHeaderAdds_not_mem_dropped (H : Header) (k v : String)
    (hk : k ∈ dropHeaderKeys) : (k, v) ∉ projectReplyHeaderAdds H := by
  intro hmem
  unfold projectReplyHeaderAdds at hmem
  rcases List.mem_flatMap.mp hmem with ⟨p, hp, hpv⟩
  by_cases hd : dropHeaderKeys.contains p.1 = true
  · rw [if_pos hd] at hpv
    cases hpv
  · rw [if_neg hd] at hpv
    rcases List.mem_map.mp hpv with ⟨v', _, hveq⟩
    have hp1 : p.1 = k := congrArg Prod.fst hveq
    rw [hp1] at hd
    exact hd (by simpa using hk)

theorem projectReplyHeaderAdds_filter_not_key (H : Header) (k : String)
    (hnk : ∀ p ∈ H, p.1 ≠ k) :
    (projectReplyHeaderAdds H).filter (fun q => q.1 = k) = [] := by
  rw [List.filter_eq_nil_iff]
  intro a ha
  unfold projectReplyHeaderAdds at ha
  rcases List.mem_flatMap.mp ha with ⟨p, hp, hpa⟩
  by_cases hd : dropHeaderKeys.contains p.1 = true
  · rw [if_pos hd] at hpa
    cases hpa
  · rw [if_neg hd] at hpa
    rcases List.mem_map.mp hpa with ⟨v', _, hveq⟩
    have ha1 : a.1 = p.1 := by rw [← hveq]
    simp [ha1, hnk p hp]

theorem projectReplyHeaderAdds_values (H : Header) (k : String) (vs : List String)
    (hnodup : (H.map Prod.fst).Nodup) (hmem : (k, vs) ∈ H) (hk : k ∉ dropHeaderKeys) :
    ((projectReplyHeaderAdds H).filter (fun q => q.1 = k)).map Prod.snd = vs := by
  induction H with
  | nil => cases hmem
  | cons p t ih =>
    have hnodup' : (t.map Prod.fst).Nodup := by
      rw [List.map_cons] at hnodup
      exact (List.nodup_cons.mp hnodup).2
    rcases List.mem_cons.mp hmem with rfl | hmem'
    · have hknot : k ∉ t.map Prod.fst := by
        rw [List.map_cons] at hnodup
        exact (List.nodup_cons.mp hnodup).1
      have hfilter_tail : (projectReplyHeaderAdds t).filter (fun q => q.1 = k) = [] :=
        projectReplyHeaderAdds_filter_not_key t k (fun q hq hqk =>
          hknot (by rw [← hqk]; exact List.mem_map_of_mem Prod.fst hq))
      have hc : dropHeaderKeys.contains k = false := by simpa using hk
      rw [projectReplyHeaderAdds_cons]
      simp only [hc, Bool.false_eq_true, if_false, List.filter_append, hfilter_tail,
        List.append_nil]
      have hfull : (vs.map (fun v => (k, v))).filter (fun q => q.1 = k)
          = vs.map (fun v => (k, v)) :=
        List.filter_eq_self.mpr (by
          intro a ha
          rcases List.mem_map.mp ha with ⟨v', _, hveq⟩
          simp [← hveq])
      rw [hfull, List.map_map]
      simp
    · have hpk : p.1 ≠ k := by
        intro hpk
        rw [List.map_cons] at hnodup
        exact (List.nodup_cons.mp hnodup).1
          (by rw [hpk]; exact List.mem_map_of_mem Prod.fst hmem')
      rw [projectReplyHeaderAdds_cons, List.filter_append]
      have hheadnil : ((if dropHeaderKeys.contains p.1 then []
          else p.2.map (fun v => (p.1, v))).filter (fun q => q.1 = k)) = [] := by
        by_cases hd : dropHeaderKeys.contains p.1 = true
        · rw [if_pos hd]
          rfl
        · rw [if_neg hd, List.filter_eq_nil_iff]
          intro a ha
          rcases List.mem_map.mp ha with ⟨v', _, hveq⟩
          have ha1 : a.1 = p.1 := by rw [← hveq]
          simp [ha1, hpk]
      rw [hheadnil, List.nil_append]
      exact ih hnodup' hmem'

theorem ServeHTTP_reply_headerAdds (subj : String) (t : Int) (r : HttpRequest)
    (resp m : NatsMsg) (hm : (NatsMsgForHttpRequest r subj).1 = Except.ok m) :
    (ServeHTTP subj (some t) true r (fun _ _ => BusOutcome.reply resp)).headerAdds
      = projectReplyHeaderAdds resp.header := by
  by_cases hc : natsHeaderGet resp.header "Nats-Service-Error-Code" ≠ ""
      ∧ natsHeaderGet resp.header "Nats-Service-Error-Code" ≠ "200"
  · cases hg : goAtoi (natsHeaderGet resp.header "Nats-Service-Error-Code") with
    | none => simp [ServeHTTP, hm, hc, hg]
    | some s => simp [ServeHTTP, hm, hc, hg]
  · simp [ServeHTTP, hm, hc]

/-- C6 counterexample: a reply header named `content-length` — a
case-insensitive match for `Content-Length` — is copied onto the HTTP
response instead of being dropped, because the code compares against five
exact-case strings only. -/
theorem response_header_filtering_counterexample :
    ("content-length" : String) ≠ "Content-Length"
    ∧ (ServeHTTP "greet.hi" (some 1) true ⟨"GET", "/p", "", [], [], none, []⟩
        (fun _ _ => BusOutcome.reply ⟨"greet.hi", [("content-length", ["5"])], []⟩)).headerAdds
      = [("content-length", "5")] := by
  refine ⟨by decide, by decide⟩

/-- C6 (amended): when projecting a successful reply, a reply header is
dropped iff its name is one of the five exact strings `Nats-Service-Error`,
`Nats-Service-Error-Code`, `nats-service-error`, `nats-service-error-code`,
`Content-Length` (an exact-case, not case-insensitive, match); every other
reply header is copied onto the HTTP response with all of its values
preserved in order. -/
theorem response_header_filtering (subj : String) (t : Int) (r : HttpRequest)
    (resp : NatsMsg) (hok : translationOk r subj = true)
    (hnodup : (resp.header.map Prod.fst).Nodup) :
    ∀ k vs, (k, vs) ∈ resp.header →
      ((k ∈ dropHeaderKeys → ∀ v,
          (k, v) ∉ (ServeHTTP subj (some t) true r
            (fun _ _ => BusOutcome.reply resp)).headerAdds)
       ∧ (k ∉ dropHeaderKeys →
          (((ServeHTTP subj (some t) true r
              (fun _ _ => BusOutcome.reply resp)).headerAdds.filter
                (fun q => q.1 = k)).map Prod.snd) = vs)) := by
  rcases translationOk_ex r subj hok with ⟨m, hm⟩
  intro k vs hmem
  rw [ServeHTTP_reply_headerAdds subj t r resp m hm]
  constructor
  · intro hk v
    exact projectReplyHeaderAdds_not_mem_dropped resp.header k v hk
  · intro hk
    exact projectReplyHeaderAdds_values resp.header k vs hnodup hmem hk

/-- Witness for the amended C6 at a concrete input: a two-valued ordinary
header is copied in full while a service-error header is dropped. -/
theorem response_header_filtering_witness :
    (((ServeHTTP "greet.hi" (some 1) true ⟨"GET", "/p", "", [], [], none, []⟩
        (fun _ _ => BusOutcome.reply
          ⟨"greet.hi", [("RespHeader", ["A", "B"]), ("Nats-Service-Error", ["x"])], []⟩)).headerAdds.filter
            (fun q => q.1 = "RespHeader")).map Prod.snd) = ["A", "B"] :=
  ((response_header_filtering "greet.hi" 1 ⟨"GET", "/p", "", [], [], none, []⟩
      ⟨"greet.hi", [("RespHeader", ["A", "B"]), ("Nats-Service-Error", ["x"])], []⟩
      (by decide) (by decide) "RespHeader" ["A", "B"] (by decide)).2 (by decide))

/-- C8 counterexample: a request whose body could not be fully read
(`io.ReadAll` returned an error after yielding two bytes) still translates
successfully, with the partial bytes as the message body — the source
discards the read error (`b, _ := io.ReadAll(r.Body)`), so translation does
not fail with an I/O error. -/
theorem body_read_failure_counterexample :
    (NatsMsgForHttpRequest
        ⟨"GET", "/p", "", [], [104, 105], some "unexpected EOF", []⟩ "greet.hi").1
      = Except.ok ⟨"greet.hi",
          [("X-NatsBridge-Method", ["GET"]), ("X-NatsBridge-UrlPath", ["/p"]),
           ("X-NatsBridge-UrlQuery", [""])], [104, 105]⟩ := by
  decide

/-- C8 (amended): the body-read error is ignored by translation — the
outcome is the same whether or not `io.ReadAll` reported an error — and a
successfully translated message's body is exactly the bytes the reader
returned (the complete payload when the body was read fully). -/
theorem body_read_ignored (r : HttpRequest) (subject : String) (e : Option String) :
    (NatsMsgForHttpRequest { r with bodyErr := e } subject).1
        = (NatsMsgForHttpRequest { r with bodyErr := none } subject).1
    ∧ (∀ msg, (NatsMsgForHttpRequest r subject).1 = Except.ok msg →
        msg.data = r.bodyBytes) := by
  constructor
  · by_cases hbad : subjectHasInvalidChar subject = true <;>
      simp [NatsMsgForHttpRequest, hbad, translatedHeader, headersAfterContext]
  · intro msg hmsg
    have hbad := subject_ok_of_translation_ok r subject msg hmsg
    simp only [NatsMsgForHttpRequest, hbad, Bool.false_eq_true, if_false,
      Except.ok.injEq] at hmsg
    rw [← hmsg]

theorem shouldRedact_iff (env nm : String) :
    shouldRedact env nm = true ↔ nm.toLower ∈ getRedactHeadersList env := by
  simp [shouldRedact]

/-- C9: redaction invariants — `RedactHeaders` maps nil to nil and the empty
map to the empty map; every header whose lowercased name is in the
configured redaction list has every value replaced by the mask `"***"`
(same count), and every header not in the list is returned with its values
unchanged. -/
theorem redaction_invariants (env : String) :
    RedactHeaders env none = none
    ∧ RedactHeaders env (some []) = some []
    ∧ (∀ hs : Header, ∀ nm : String, ∀ vs : List String, (nm, vs) ∈ hs →
        ∃ vs', ((nm, vs') ∈ ((RedactHeaders env (some hs)).getD []))
          ∧ (nm.toLower ∈ getRedactHeadersList env →
              vs'.length = vs.length ∧ ∀ v ∈ vs', v = "***")
          ∧ (nm.toLower ∉ getRedactHeadersList env → vs' = vs)) := by
  refine ⟨rfl, rfl, ?_⟩
  intro hs nm vs hmem
  by_cases hred : shouldRedact env nm = true
  · refine ⟨vs.map (fun _ => "***"), ?_, ?_, ?_⟩
    · simp only [RedactHeaders, Option.getD_some]
      refine List.mem_map.mpr ⟨(nm, vs), hmem, ?_⟩
      simp [hred]
    · intro _
      refine ⟨by simp, ?_⟩
      intro v hv
      rcases List.mem_map.mp hv with ⟨_, _, hveq⟩
      exact hveq.symm
    · intro hnm
      exact absurd ((shouldRedact_iff env nm).mp hred) hnm
  · refine ⟨vs, ?_, ?_, fun _ => rfl⟩
    · simp only [RedactHeaders, Option.getD_some]
      refine List.mem_map.mpr ⟨(nm, vs), hmem, ?_⟩
      simp [hred]
    · intro hnm
      exact absurd ((shouldRedact_iff env nm).mpr hnm) hred
